import Mathlib

/-!
# Verification of the tiged core (source resolution, caching, directives)

Shallow embedding of the core of the `tiged` repository cloner:

* `src/tiged.ts` — the `Tiged` class: `selectRef`, `getHash`,
  `getHashFromCache`, `cloneWithTar`, `cloneWithGit`, `checkDirIsEmpty`,
  `remove`;
* `src/utils.ts` — `updateCache`, `extractTarball`, `isSubDirectoryAFile`,
  `getOldHash`, `downloadTarball`.

External collaborators (the HTTPS client, the `tar` stream decoder, the
`git` subprocess and the filesystem) are modelled as explicit inputs: the
remote ref listing, the shallow-clone probe result, the presence of the
tarball blob on disk and the outcome of a download attempt are fields of an
`Env` record, and every interaction with a collaborator is recorded in an
effect trace so that "no network call happens" is a statement about the
trace.  JavaScript objects used as string maps (`map.json`, `access.json`)
are modelled as insertion-ordered association lists, and JavaScript string
truthiness (`undefined` and `""` are falsy) is modelled explicitly.
-/

set_option autoImplicit false

/-- Model of the `TigedError` class of `src/utils.ts` (message plus the
machine-readable `code`, and the optional `ref`/`url` context).  The
`original` cause chain is not tracked. -/
structure TigedError where
  message : String
  code : String
  ref : Option String := none
  url : Option String := none
deriving DecidableEq

/-- Helper: build a `TigedError` with a `ref` context. -/
def tigedErr (message code : String) (r : Option String) : TigedError :=
  { message := message, code := code, ref := r, url := none }

/-- One parsed entry of a remote ref listing, as produced by `fetchRefs` in
`src/utils.ts`: `{type, name, hash}`. -/
structure RefEntry where
  type : String
  name : String
  hash : String
deriving DecidableEq

/-- A JavaScript object used as a string-to-string map (the `map.json`
mapping and the `access.json` log): an insertion-ordered association
list. -/
abbrev JsMap := List (String × String)

/-- Property access `m[k]`: the value at the first matching key. -/
def jsGet (m : JsMap) (k : String) : Option String :=
  (m.find? (fun kv => kv.1 == k)).map (fun kv => kv.2)

/-- The JavaScript `k in m` test. -/
def jsHasKey (m : JsMap) (k : String) : Bool :=
  (jsGet m k).isSome

/-- Assignment `m[k] = v`: updates the existing entry in place (JavaScript
objects keep the original insertion position of an updated key) or appends
a new entry. -/
def jsSet (m : JsMap) (k v : String) : JsMap :=
  if jsHasKey m k then m.map (fun kv => if kv.1 == k then (kv.1, v) else kv)
  else m ++ [(k, v)]

/-- JavaScript truthiness of a `string | undefined` value: `undefined` and
the empty string are falsy. -/
def truthyStr (s : Option String) : Bool :=
  match s with
  | none => false
  | some s => s != ""

/-- The test `/^[0-9a-f]{40}$/.test(ref)` used in `getHash` and
`cloneWithTar` (`src/tiged.ts`). -/
def isCommitHash (ref : String) : Bool :=
  ref.length == 40 && ref.data.all (fun c => c.isDigit || ('a' ≤ c && c ≤ 'f'))

/-- Model of JavaScript `s.startsWith(pre)`, stated over the character
lists so that concrete instances evaluate in the kernel. -/
def jsStartsWith (s pre : String) : Bool :=
  pre.data.isPrefixOf s.data

/-- Embedding of `Tiged.selectRef` (`src/tiged.ts`): scan the listing for the first
entry whose `name` equals the selector; failing that, and only when the
selector has at least 8 characters, scan for the first entry whose `hash`
starts with the selector. -/
def selectRef (refs : List RefEntry) (selector : String) : Option String :=
  match refs.find? (fun r => r.name == selector) with
  | some r => some r.hash
  | none =>
    if selector.length < 8 then none
    else (refs.find? (fun r => jsStartsWith r.hash selector)).map RefEntry.hash

/-- First-match decomposition for the name scan of `selectRef`. -/
theorem selectRef_name_first (pre : List RefEntry) (r : RefEntry)
    (post : List RefEntry) (selector : String)
    (hpre : ∀ x ∈ pre, x.name ≠ selector) (hr : r.name = selector) :
    selectRef (pre ++ r :: post) selector = some r.hash := by
  have hfind : (pre ++ r :: post).find? (fun x => x.name == selector) = some r := by
    rw [List.find?_append]
    have h₁ : pre.find? (fun x => x.name == selector) = none := by
      rw [List.find?_eq_none]
      intro x hx
      simpa using hpre x hx
    rw [h₁]
    simp [hr]
  simp [selectRef, hfind]

/-- First-match decomposition for the hash scan of `selectRef`. -/
theorem selectRef_hash_first (pre : List RefEntry) (r : RefEntry)
    (post : List RefEntry) (selector : String)
    (hname : ∀ x ∈ pre ++ r :: post, x.name ≠ selector)
    (hlen : 8 ≤ selector.length)
    (hpre : ∀ x ∈ pre, jsStartsWith x.hash selector = false)
    (hr : jsStartsWith r.hash selector = true) :
    selectRef (pre ++ r :: post) selector = some r.hash := by
  have hfind : (pre ++ r :: post).find? (fun x => x.name == selector) = none := by
    rw [List.find?_eq_none]
    intro x hx
    simpa using hname x hx
  have hfind₂ : (pre ++ r :: post).find? (fun x => jsStartsWith x.hash selector) = some r := by
    rw [List.find?_append]
    have h₁ : pre.find? (fun x => jsStartsWith x.hash selector) = none := by
      rw [List.find?_eq_none]
      intro x hx
      simpa using hpre x hx
    rw [h₁]
    simp [hr]
  simp [selectRef, hfind, hfind₂, Nat.not_lt.mpr hlen]

/-- C8: `selectRef` returns the hash of the first entry whose name equals
the selector; with no name match and a selector of at least 8 characters it
returns the hash of the first entry whose hash starts with the selector; in
every other case (no name match together with a short selector, or no match
at all) it returns no hash. -/
theorem c8_selectRef_selection (selector : String) :
    (∀ pre r post, (∀ x ∈ pre, x.name ≠ selector) → r.name = selector →
      selectRef (pre ++ r :: post) selector = some r.hash) ∧
    (∀ pre r post, (∀ x ∈ pre ++ r :: post, x.name ≠ selector) →
      8 ≤ selector.length →
      (∀ x ∈ pre, jsStartsWith x.hash selector = false) →
      jsStartsWith r.hash selector = true →
      selectRef (pre ++ r :: post) selector = some r.hash) ∧
    (∀ refs, (∀ x ∈ refs, x.name ≠ selector) → selector.length < 8 →
      selectRef refs selector = none) ∧
    (∀ refs, (∀ x ∈ refs, x.name ≠ selector ∧ jsStartsWith x.hash selector = false) →
      selectRef refs selector = none) := by
  refine ⟨fun pre r post h₁ h₂ => selectRef_name_first pre r post selector h₁ h₂,
    fun pre r post h₁ h₂ h₃ h₄ => selectRef_hash_first pre r post selector h₁ h₂ h₃ h₄,
    fun refs hname hshort => ?_, fun refs hnone => ?_⟩
  · have hfind : refs.find? (fun x => x.name == selector) = none := by
      rw [List.find?_eq_none]
      intro x hx
      simpa using hname x hx
    simp [selectRef, hfind, hshort]
  · have hfind : refs.find? (fun x => x.name == selector) = none := by
      rw [List.find?_eq_none]
      intro x hx
      simpa using (hnone x hx).1
    have hfind₂ : refs.find? (fun x => jsStartsWith x.hash selector) = none := by
      rw [List.find?_eq_none]
      intro x hx
      simpa using (hnone x hx).2
    by_cases hlen : selector.length < 8 <;> simp [selectRef, hfind, hfind₂, hlen]

/-- Witness for C8 at a concrete listing: the branch `main` wins by name,
an 8-character selector wins by hash, and a 7-character selector
with no name match yields nothing. -/
theorem c8_selectRef_selection_witness :
    selectRef ([⟨"branch", "dev", "1111111111111111111111111111111111111111"⟩] ++
      (⟨"branch", "main", "2222222222222222222222222222222222222222"⟩ : RefEntry) ::
      [⟨"tag", "v1", "3333333333333333333333333333333333333333"⟩]) "main" =
      some "2222222222222222222222222222222222222222" ∧
    selectRef ([] ++ (⟨"branch", "dev", "abcdef1234567890abcdef1234567890abcdef12"⟩ : RefEntry) :: [])
      "abcdef12" = some "abcdef1234567890abcdef1234567890abcdef12" ∧
    selectRef [⟨"branch", "dev", "abcdef1234567890abcdef1234567890abcdef12"⟩] "abcdef1" = none := by
  refine ⟨(c8_selectRef_selection "main").1
      [⟨"branch", "dev", "1111111111111111111111111111111111111111"⟩]
      ⟨"branch", "main", "2222222222222222222222222222222222222222"⟩
      [⟨"tag", "v1", "3333333333333333333333333333333333333333"⟩]
      (by decide) (by decide),
    (c8_selectRef_selection "abcdef12").2.1 []
      ⟨"branch", "dev", "abcdef1234567890abcdef1234567890abcdef12"⟩ []
      (by decide) (by decide) (by decide) (by decide),
    (c8_selectRef_selection "abcdef1").2.2.1
      [⟨"branch", "dev", "abcdef1234567890abcdef1234567890abcdef12"⟩]
      (by decide) (by decide)⟩

/-! ## Ref resolution and the tar retrieval path

`getHash`, `getHashFromCache` and `cloneWithTar` perform I/O through the
`git` subprocess (`fetchRefs`, `getOldHash`), the filesystem (`fs.stat` on
the tarball path) and the HTTPS client (`downloadTarball`).  These
collaborators are modelled by an `Env` record of their outcomes, and each
interaction is recorded as an `Eff` in an effect trace.
-/

/-- One observable interaction with an external collaborator. -/
inductive Eff where
  /-- `fetchRefs` — `git ls-remote` against the remote (network). -/
  | fetchRefsEff
  /-- `getOldHash` — shallow-clone probe `git fetch --depth 1` (network). -/
  | getOldHashEff
  /-- `fs.stat` on the tarball file path (local disk). -/
  | statEff
  /-- `downloadTarball` — HTTPS download (network). -/
  | downloadEff
  /-- `updateCache` — cache mapping / access log write (local disk). -/
  | cacheUpdateEff
deriving DecidableEq

/-- Responses of the external collaborators for one clone operation.  A
`.error` outcome stands for the thrown (non-`TigedError`) exception's
message. -/
structure Env where
  /-- Outcome of `fetchRefs(repo)`: the parsed remote ref listing. -/
  refsOutcome : Except String (List RefEntry)
  /-- Outcome of the shallow-clone probe `getOldHash(repo)`. -/
  oldHashOutcome : Except String String
  /-- Whether `fs.stat(tarballFilePath)` succeeds, i.e. the tarball blob
  already exists on disk. -/
  tarballOnDisk : Bool
  /-- Outcome of `downloadTarball(url, tarballFilePath, proxy)`. -/
  downloadOutcome : Except String Unit
  /-- Files reported extracted by `untarToDir` (`src/tar.ts` is not part of
  the sources; modelled from the spec: extraction yields the list of entry
  paths written under the destination). -/
  extractedFiles : List String

/-- Embedding of `Tiged.getHash` (`src/tiged.ts`).  Mirrors the source exactly: the
`cached` parameter is received but never read; for ref `"HEAD"` the hash of
the `HEAD`-typed entry is returned, defaulting to the empty string; then
`selectRef`, then the literal 40-hex commit hash, then the `getOldHash`
shallow-clone probe.  Any error raised inside (including by the probe) is
wrapped as a `COULD_NOT_FETCH` `TigedError`. -/
def getHash (repoRef : String) (cached : JsMap) (env : Env) :
    Except TigedError String × List Eff :=
  match env.refsOutcome with
  | .error msg =>
    (.error (tigedErr msg "COULD_NOT_FETCH" (some repoRef)), [.fetchRefsEff])
  | .ok refs =>
    if repoRef == "HEAD" then
      (.ok (((refs.find? (fun r => r.type == "HEAD")).map RefEntry.hash).getD ""),
        [.fetchRefsEff])
    else
      let hash := selectRef refs repoRef
      if truthyStr hash then (.ok (hash.getD ""), [.fetchRefsEff])
      else if isCommitHash repoRef then (.ok repoRef, [.fetchRefsEff])
      else
        match env.oldHashOutcome with
        | .ok h => (.ok h, [.fetchRefsEff, .getOldHashEff])
        | .error msg =>
          (.error (tigedErr msg "COULD_NOT_FETCH" (some repoRef)), [.fetchRefsEff, .getOldHashEff])

/-- Embedding of `Tiged.getHashFromCache` (`src/tiged.ts`): when the ref is not a key of
the cached mapping, delegate to `getHash`; otherwise return the mapped
value (emitting the `USING_CACHE` notification) without touching any
collaborator. -/
def getHashFromCache (repoRef : String) (cached : JsMap) (env : Env) :
    Except TigedError (Option String) × List Eff :=
  if !(jsHasKey cached repoRef) then
    match getHash repoRef cached env with
    | (.ok h, t) => (.ok (some h), t)
    | (.error e, t) => (.error e, t)
  else
    (.ok (jsGet cached repoRef), [])

/-- The hash-resolution ternary of `Tiged.cloneWithTar` (`src/tiged.ts`,
lines 806-814): offline mode uses a full 40-hex ref literally and otherwise
goes through `getHashFromCache`; with the cache disabled it resolves fresh
via `getHash`; the default goes through `getHashFromCache`. -/
def resolveHashForTar (offlineMode disableCache : Bool) (repoRef : String)
    (cached : JsMap) (env : Env) : Except TigedError (Option String) × List Eff :=
  if offlineMode then
    if isCommitHash repoRef then (.ok (some repoRef), [])
    else getHashFromCache repoRef cached env
  else if disableCache then
    match getHash repoRef cached env with
    | (.ok h, t) => (.ok (some h), t)
    | (.error e, t) => (.error e, t)
  else getHashFromCache repoRef cached env

/-! ## Cache store -/

/-- On-disk state of one repository's cache directory: the `access.json`
log, the `map.json` ref-to-hash mapping, and the tarball blobs present
(file names `<hash>.tar.gz`). -/
structure CacheState where
  accessLogs : JsMap
  mapping : JsMap
  blobs : List String
deriving DecidableEq

/-- Embedding of `updateCache` (`src/utils.ts`): always merge `{ref: now}` into the
access log; stop if the mapping already maps the ref to `hash`; otherwise
capture the old hash and, when it is truthy and the scan `for key in
cached: cached[key] === hash` finds no entry equal to the *new* hash in the
not-yet-updated mapping, unlink the old hash's tarball blob (ignoring
unlink errors); finally write `cached[ref] = hash` back to `map.json`. -/
def updateCache (repoRef hash now : String) (st : CacheState) : CacheState :=
  let accessLogs := jsSet st.accessLogs repoRef now
  if jsGet st.mapping repoRef == some hash then
    { st with accessLogs := accessLogs }
  else
    let oldHash := jsGet st.mapping repoRef
    let blobs :=
      if truthyStr oldHash then
        let used := st.mapping.any (fun kv => kv.2 == hash)
        if !used then st.blobs.erase ((oldHash.getD "") ++ ".tar.gz")
        else st.blobs
      else st.blobs
    { accessLogs := accessLogs, mapping := jsSet st.mapping repoRef hash, blobs := blobs }

/-- Embedding of `Tiged.cloneWithTar` (`src/tiged.ts`): resolve the hash, reject a falsy
hash with `MISSING_REF`, run the offline/cache gate (offline mode conflicts
with `disableCache` as `BAD_REF`; a missing blob is `CACHE_MISS`; otherwise
`fs.stat` probes for a local tarball), then — unconditionally, line 915 —
call `downloadTarball`, wrapping a non-`TigedError` failure as
`COULD_NOT_DOWNLOAD`; on success update the cache unless disabled, extract,
and fail with `NO_FILES` when nothing was extracted.  Returns the overall
outcome, the effect trace, and the resulting cache-directory state. -/
def cloneWithTar (offlineMode disableCache : Bool) (repoRef : String)
    (cached : JsMap) (st : CacheState) (now : String) (env : Env) :
    Except TigedError (List String) × List Eff × CacheState :=
  let resolved := resolveHashForTar offlineMode disableCache repoRef cached env
  match resolved with
  | (.error e, trace₀) => (.error e, trace₀, st)
  | (.ok hashOpt, trace₀) =>
    if !(truthyStr hashOpt) then
      (.error (tigedErr ("could not find commit hash for " ++ repoRef) "MISSING_REF" (some repoRef)), trace₀, st)
    else
      let hash := hashOpt.getD ""
      let gate : Except TigedError Unit × List Eff :=
        if offlineMode then
          if disableCache then
            (.error (tigedErr "--offline-mode cannot be used with --disable-cache" "BAD_REF" (some repoRef)), [])
          else if env.tarballOnDisk then (.ok (), [.statEff])
          else
            (.error (tigedErr ("offline mode: missing cached tarball for " ++ repoRef) "CACHE_MISS" (some repoRef)), [.statEff])
        else
          (.ok (), if disableCache then [] else [.statEff])
      match gate with
      | (.error e, t₁) => (.error e, trace₀ ++ t₁, st)
      | (.ok _, t₁) =>
        match env.downloadOutcome with
        | .error _ =>
          (.error (tigedErr "could not download" "COULD_NOT_DOWNLOAD" (some repoRef)), trace₀ ++ t₁ ++ [.downloadEff], st)
        | .ok _ =>
          let st' := if disableCache then st else updateCache repoRef hash now st
          let trace := trace₀ ++ t₁ ++ [.downloadEff] ++
            (if disableCache then [] else [.cacheUpdateEff])
          if env.extractedFiles.isEmpty then
            (.error (tigedErr "No files to extract." "NO_FILES" (some repoRef)), trace, st')
          else (.ok env.extractedFiles, trace, st')

/-! ## C1-C4: hash resolution, offline mode, cache update -/

/-- Error code of a tar-clone outcome. -/
def tarOutcomeCode (r : Except TigedError (List String) × List Eff × CacheState) :
    Option String :=
  match r.1 with
  | .error e => some e.code
  | .ok _ => none

/-- Error code of a hash-resolution outcome. -/
def hashResCode (r : Except TigedError (Option String) × List Eff) : Option String :=
  match r.1 with
  | .error e => some e.code
  | .ok _ => none

/-- Resolved value of a hash-resolution outcome. -/
def hashResValue (r : Except TigedError (Option String) × List Eff) : Option String :=
  match r.1 with
  | .ok v => v
  | .error _ => none

/-- An environment in which every network collaborator fails (offline), but
the tarball blob for the requested hash is present on disk. -/
def offlineEnvWithBlob : Env :=
  { refsOutcome := .error "network unreachable"
    oldHashOutcome := .error "network unreachable"
    tarballOnDisk := true
    downloadOutcome := .error "network unreachable"
    extractedFiles := ["README.md"] }

/-- C1 (code bug): in tar mode with `offlineMode = true`, a full
40-character commit-hash ref and the corresponding blob present on disk,
`cloneWithTar` does *not* skip the network fetch: after logging that the
file exists it still reaches the unconditional `downloadTarball` call
(`src/tiged.ts` line 915), so the trace contains a download effect and the
clone fails with `COULD_NOT_DOWNLOAD` instead of succeeding offline.  The
repository's own unit test "offline mode accepts a full 40-char commit hash
without map.json" expects success with `downloadTarball` never called. -/
theorem c1_offline_blob_still_downloads :
    (cloneWithTar true false "aaaaaaaaaaaaaaaaaaaaaaaaaaaaaaaaaaaaaaaa" []
        ⟨[], [], ["aaaaaaaaaaaaaaaaaaaaaaaaaaaaaaaaaaaaaaaa.tar.gz"]⟩
        "2026-10-11T00:00:00.000Z" offlineEnvWithBlob).2.1 =
      [Eff.statEff, Eff.downloadEff] ∧
    tarOutcomeCode (cloneWithTar true false "aaaaaaaaaaaaaaaaaaaaaaaaaaaaaaaaaaaaaaaa" []
        ⟨[], [], ["aaaaaaaaaaaaaaaaaaaaaaaaaaaaaaaaaaaaaaaa.tar.gz"]⟩
        "2026-10-11T00:00:00.000Z" offlineEnvWithBlob) = some "COULD_NOT_DOWNLOAD" := by
  exact ⟨rfl, rfl⟩

/-- C2 (code bug): `updateCache` decides whether to delete the superseded
blob by scanning the (not yet updated) mapping for the *new* hash
(`cached[key] === hash`, `src/utils.ts` line 582) instead of the old one.
First conjunct: with `{main: aaaa, dev: aaaa}` and `main` moving to `bbbb`,
the blob `aaaa.tar.gz` is deleted even though `dev` still maps to `aaaa` in
the updated mapping (the repository's own unit test "updateCache does not
delete old tarball when still referenced by another ref" expects it to be
kept).  Second conjunct: with `{main: aaaa, dev: bbbb}` and `main` moving
to `bbbb`, the now-orphaned `aaaa.tar.gz` is kept. -/
theorem c2_updateCache_scans_new_hash :
    updateCache "main" "bbbb" "2026-10-11T00:00:00.000Z"
        ⟨[], [("main", "aaaa"), ("dev", "aaaa")], ["aaaa.tar.gz"]⟩ =
      ⟨[("main", "2026-10-11T00:00:00.000Z")],
        [("main", "bbbb"), ("dev", "aaaa")], []⟩ ∧
    updateCache "main" "bbbb" "2026-10-11T00:00:00.000Z"
        ⟨[], [("main", "aaaa"), ("dev", "bbbb")], ["aaaa.tar.gz"]⟩ =
      ⟨[("main", "2026-10-11T00:00:00.000Z")],
        [("main", "bbbb"), ("dev", "bbbb")], ["aaaa.tar.gz"]⟩ := by
  exact ⟨rfl, rfl⟩

/-- C3 (code bug): in offline mode with a ref that is not a full 40-hex
commit hash and is absent from the cache mapping, hash resolution is *not*
a cache-only lookup: `getHashFromCache` falls through to `getHash`, which
calls `fetchRefs` (a `git ls-remote` network operation), so the trace
contains the fetch effect and the failure is `COULD_NOT_FETCH` rather than
`MISSING_REF` (first two conjuncts); when the network is reachable the
remote hash is used (third conjunct).  The full-40-hex half of the claim
does hold: the ref is used literally with no effects (last conjunct). -/
theorem c3_offline_resolution_hits_network :
    (resolveHashForTar true false "develop" [] offlineEnvWithBlob).2 =
      [Eff.fetchRefsEff] ∧
    hashResCode (resolveHashForTar true false "develop" [] offlineEnvWithBlob) =
      some "COULD_NOT_FETCH" ∧
    resolveHashForTar true false "develop" []
        { offlineEnvWithBlob with
            refsOutcome := .ok [⟨"branch", "develop", "cafecafecafecafecafecafecafecafecafecafe"⟩] } =
      (.ok (some "cafecafecafecafecafecafecafecafecafecafe"), [Eff.fetchRefsEff]) ∧
    resolveHashForTar true false "aaaaaaaaaaaaaaaaaaaaaaaaaaaaaaaaaaaaaaaa" []
        offlineEnvWithBlob = (.ok (some "aaaaaaaaaaaaaaaaaaaaaaaaaaaaaaaaaaaaaaaa"), []) := by
  exact ⟨rfl, rfl, rfl, rfl⟩

/-- A reachable environment whose remote listing carries a synthetic
`HEAD` entry with hash `bbbb`. -/
def envWithHeadEntry : Env :=
  { refsOutcome := .ok [⟨"HEAD", "bbbb", "bbbb"⟩]
    oldHashOutcome := .error "unused"
    tarballOnDisk := false
    downloadOutcome := .ok ()
    extractedFiles := ["README.md"] }

/-- A reachable environment whose remote listing is non-empty but carries
no `HEAD`-typed entry. -/
def envWithoutHeadEntry : Env :=
  { refsOutcome := .ok [⟨"branch", "main", "cccccccccccccccccccccccccccccccccccccccc"⟩]
    oldHashOutcome := .error "unused"
    tarballOnDisk := false
    downloadOutcome := .ok ()
    extractedFiles := ["README.md"] }

/-- C4 counterexample: both halves of the claim fail on the code.  First
half: with the default options the resolution used by `cloneWithTar` for
ref `"HEAD"` *does* consult the cached mapping — when `"HEAD"` is a key it
returns the cached hash `aaaa` with no remote call at all, although the
remote listing's `HEAD` entry carries `bbbb` (first two conjuncts; the
third shows the same environment without the cache entry yields `bbbb`, so
the result depends on the map).  Second half: a non-empty listing with no
`HEAD`-typed entry makes `getHash` return the empty string, which
`cloneWithTar` rejects with `MISSING_REF` (last two conjuncts). -/
theorem c4_head_counterexample :
    resolveHashForTar false false "HEAD" [("HEAD", "aaaa")] envWithHeadEntry =
      (.ok (some "aaaa"), []) ∧
    hashResValue (resolveHashForTar false false "HEAD" [("HEAD", "aaaa")] envWithHeadEntry) ≠
      hashResValue (resolveHashForTar false false "HEAD" [] envWithHeadEntry) ∧
    resolveHashForTar false false "HEAD" [] envWithHeadEntry =
      (.ok (some "bbbb"), [Eff.fetchRefsEff]) ∧
    getHash "HEAD" [] envWithoutHeadEntry = (.ok "", [Eff.fetchRefsEff]) ∧
    tarOutcomeCode (cloneWithTar false false "HEAD" [] ⟨[], [], []⟩
        "2026-10-11T00:00:00.000Z" envWithoutHeadEntry) = some "MISSING_REF" := by
  exact ⟨rfl, by decide, rfl, rfl, rfl⟩

/-- C4 as amended: `getHash` itself never consults the cached ref-to-hash
map (its result is the same for any two maps), and whenever the listing
contains a `HEAD`-typed entry it returns that entry's hash (so `getHash`
itself never produces a `MISSING_REF`); but the full resolution used by
`cloneWithTar` in the default configuration consults the map first, and a
cached `"HEAD"` key is answered from the map with no remote interaction at
all. -/
theorem c4_head_resolution_amended :
    (∀ repoRef c₁ c₂ env, getHash repoRef c₁ env = getHash repoRef c₂ env) ∧
    (∀ cached env refs e, env.refsOutcome = .ok refs →
      refs.find? (fun r => r.type == "HEAD") = some e →
      getHash "HEAD" cached env = (.ok e.hash, [Eff.fetchRefsEff])) ∧
    (∀ cached env h, jsGet cached "HEAD" = some h →
      resolveHashForTar false false "HEAD" cached env = (.ok (some h), [])) := by
  refine ⟨fun repoRef c₁ c₂ env => rfl, fun cached env refs e hrefs hfind => ?_,
    fun cached env h hget => ?_⟩
  · simp [getHash, hrefs, hfind]
  · have hkey : jsHasKey cached "HEAD" = true := by
      simp [jsHasKey, hget]
    simp [resolveHashForTar, getHashFromCache, hkey, hget]

/-- Witness for the amended C4 at concrete inputs. -/
theorem c4_head_resolution_amended_witness :
    getHash "HEAD" [("HEAD", "aaaa")] envWithHeadEntry =
      getHash "HEAD" [] envWithHeadEntry ∧
    getHash "HEAD" [] envWithHeadEntry =
      (.ok (RefEntry.hash ⟨"HEAD", "bbbb", "bbbb"⟩), [Eff.fetchRefsEff]) ∧
    resolveHashForTar false false "HEAD" [("HEAD", "aaaa")] envWithHeadEntry =
      (.ok (some "aaaa"), []) := by
  exact ⟨c4_head_resolution_amended.1 "HEAD" [("HEAD", "aaaa")] [] envWithHeadEntry,
    c4_head_resolution_amended.2.1 [] envWithHeadEntry [⟨"HEAD", "bbbb", "bbbb"⟩]
      ⟨"HEAD", "bbbb", "bbbb"⟩ rfl (by decide),
    c4_head_resolution_amended.2.2 [("HEAD", "aaaa")] envWithHeadEntry "aaaa" rfl⟩

/-! ## C6 / C10: the pre-flight empty-directory check

`Tiged.checkDirIsEmpty` wraps its body in a `try`/`catch` whose handler
rethrows an error only when it is a `TigedError` with a code other than
`'ENOENT'`.  Errors raised while reading the destination listing are plain
filesystem errors (never `TigedError`s), modelled by their string code. -/

/-- An exception as seen by the `catch` handler of `checkDirIsEmpty`:
either this package's `TigedError` or a plain system error. -/
inductive JsError where
  | tiged (e : TigedError)
  | system (code : String)
deriving DecidableEq

/-- The `try` body of `Tiged.checkDirIsEmpty` (`src/tiged.ts`): read the
destination listing; a non-empty listing either (with `force`) logs
`DEST_NOT_EMPTY` and recursively removes the destination, or aborts with a
`DEST_NOT_EMPTY` `TigedError`; an empty listing just logs.  Returns the
body's outcome and whether the destination was cleared. -/
def checkDirIsEmptyTry (force : Bool)
    (readdirResult : Except String (List String)) : Except JsError Unit × Bool :=
  match readdirResult with
  | .error code => (.error (.system code), false)
  | .ok files =>
    if files.length > 0 then
      if force then (.ok (), true)
      else
        (.error (.tiged (tigedErr
          "destination directory is not empty, aborting. Use options.force to override"
          "DEST_NOT_EMPTY" none)), false)
    else (.ok (), false)

/-- Embedding of `Tiged.checkDirIsEmpty` (`src/tiged.ts`): the `catch` handler rethrows
only a `TigedError` whose code differs from `'ENOENT'`; every other
exception is swallowed and the clone proceeds. -/
def checkDirIsEmpty (force : Bool)
    (readdirResult : Except String (List String)) : Except TigedError Unit × Bool :=
  match checkDirIsEmptyTry force readdirResult with
  | (.ok _, cleared) => (.ok (), cleared)
  | (.error (.tiged e), cleared) =>
    if e.code != "ENOENT" then (.error e, cleared) else (.ok (), cleared)
  | (.error (.system _), cleared) => (.ok (), cleared)

/-- C6: for every non-empty destination listing, the pre-flight check with
`force` unset fails with a `DEST_NOT_EMPTY` `TigedError` and does not touch
the destination (it is not cleared, so its contents are unchanged), while
with `force = true` it succeeds — the clone continues — after recursively
clearing the destination. -/
theorem c6_force_gates_nonempty_destination (files : List String)
    (hne : files ≠ []) :
    checkDirIsEmpty false (.ok files) =
      (.error (tigedErr
        "destination directory is not empty, aborting. Use options.force to override"
        "DEST_NOT_EMPTY" none), false) ∧
    checkDirIsEmpty true (.ok files) = (.ok (), true) := by
  have hlen : 0 < files.length := List.length_pos.mpr hne
  constructor <;> simp [checkDirIsEmpty, checkDirIsEmptyTry, hlen, tigedErr]

/-- Witness for C6 at a concrete one-file destination. -/
theorem c6_force_gates_nonempty_destination_witness :
    checkDirIsEmpty false (.ok ["existing.txt"]) =
      (.error (tigedErr
        "destination directory is not empty, aborting. Use options.force to override"
        "DEST_NOT_EMPTY" none), false) ∧
    checkDirIsEmpty true (.ok ["existing.txt"]) = (.ok (), true) :=
  c6_force_gates_nonempty_destination ["existing.txt"] (by decide)

/-- C10: if reading the destination listing fails with any (plain, i.e.
non-`TigedError`) error — a missing directory, a permission failure — the
check swallows it and returns success without clearing anything, so the
clone proceeds as though the destination were empty; and every error the
check itself propagates is the `DEST_NOT_EMPTY` `TigedError`. -/
theorem c10_checkDirIsEmpty_error_policy :
    (∀ force code, checkDirIsEmpty force (.error code) = (.ok (), false)) ∧
    (∀ force readdirResult e cleared,
      checkDirIsEmpty force readdirResult = (.error e, cleared) →
      e.code = "DEST_NOT_EMPTY") := by
  refine ⟨fun force code => rfl, fun force readdirResult e cleared h => ?_⟩
  match readdirResult with
  | .error code => simp [checkDirIsEmpty, checkDirIsEmptyTry] at h
  | .ok files =>
    by_cases hlen : files.length > 0
    · match force with
      | true => simp [checkDirIsEmpty, checkDirIsEmptyTry, hlen] at h
      | false =>
        simp [checkDirIsEmpty, checkDirIsEmptyTry, hlen, tigedErr] at h
        rw [← h.1]
    · simp [checkDirIsEmpty, checkDirIsEmptyTry, hlen] at h

/-- Witness for C10: a missing destination (`ENOENT` system error) is
swallowed, and the concrete `DEST_NOT_EMPTY` failure carries that code. -/
theorem c10_checkDirIsEmpty_error_policy_witness :
    checkDirIsEmpty false (.error "ENOENT") = (.ok (), false) ∧
    (tigedErr
      "destination directory is not empty, aborting. Use options.force to override"
      "DEST_NOT_EMPTY" none).code = "DEST_NOT_EMPTY" := by
  exact ⟨c10_checkDirIsEmpty_error_policy.1 false "ENOENT",
    c10_checkDirIsEmpty_error_policy.2 false (.ok ["existing.txt"])
      (tigedErr
        "destination directory is not empty, aborting. Use options.force to override"
        "DEST_NOT_EMPTY" none) false rfl⟩

/-! ## C7: the `remove` directive -/

/-- Events emitted on the `info`/`warn` channels that matter to the
`remove` directive: a non-fatal `FILE_DOES_NOT_EXIST` warning naming the
missing path, and the `REMOVED` summary notification listing the paths
actually removed. -/
inductive Event where
  | warnMissing (file : String)
  | removedInfo (files : List String)
deriving DecidableEq

/-- The destination directory contents: the relative paths (files and
directories) currently present. -/
abbrev DestFs := List String

/-- Embedding of `pathExists` against the destination (`src/utils.ts`). -/
def fsPathExists (fs : DestFs) (p : String) : Bool :=
  fs.contains p

/-- Embedding of `fs.rm(path, {force: true, recursive: true})`: drop the path and
everything below it. -/
def fsRm (fs : DestFs) (p : String) : DestFs :=
  fs.filter (fun q => !(q == p || jsStartsWith q (p ++ "/")))

/-- The `files` field of a `remove` directive: the source accepts a single
string or an array of strings. -/
inductive FilesField where
  | single (file : String)
  | many (files : List String)
deriving DecidableEq

/-- Embedding of `Array.isArray(action.files) ? action.files : [action.files]`
(`src/tiged.ts`): a single string becomes a one-element list. -/
def toFileList : FilesField → List String
  | .single f => [f]
  | .many fs => fs

/-- Embedding of `Tiged.remove` (`src/tiged.ts`): for each requested path, delete it
when it exists under the destination (collecting it into `removedFiles`)
and otherwise emit a non-fatal `FILE_DOES_NOT_EXIST` warning; afterwards,
when anything was removed, emit one `REMOVED` summary listing it.  The
existence checks of the `Promise.all` batch all observe the initial
destination state.  The function never throws. -/
def remove (files : FilesField) (fs : DestFs) : DestFs × List Event :=
  let filesToBeRemoved := toFileList files
  let removedFiles := filesToBeRemoved.filter (fun f => fsPathExists fs f)
  let warns := (filesToBeRemoved.filter (fun f => !(fsPathExists fs f))).map Event.warnMissing
  let fs' := removedFiles.foldl fsRm fs
  (fs', warns ++ (if removedFiles.isEmpty then [] else [Event.removedInfo removedFiles]))

/-- The directive loop of `Tiged.clone` (`src/tiged.ts`, lines 519-526)
restricted to `remove` directives: each directive is awaited in order and
the loop carries on past one whose paths were missing. -/
def runRemoveDirectives (directives : List FilesField) (fs : DestFs) :
    DestFs × List Event :=
  match directives with
  | [] => (fs, [])
  | d :: rest =>
    let step := remove d fs
    let next := runRemoveDirectives rest step.1
    (next.1, step.2 ++ next.2)

/-- C7: a `remove` target that does not exist under the destination yields
a `FILE_DOES_NOT_EXIST` warning and does not abort the pipeline — the
existing paths of the same directive are still removed and the remaining
directives still run, contributing their own events; a single-string
`files` field is treated as a one-element list; and when at least one path
was removed, a `REMOVED` summary listing exactly the removed paths is
emitted. -/
theorem c7_remove_missing_target_is_nonfatal (fs : DestFs) :
    (∀ files f, f ∈ toFileList files → fsPathExists fs f = false →
      Event.warnMissing f ∈ (remove files fs).2) ∧
    (∀ f, toFileList (.single f) = [f]) ∧
    (∀ files, (remove files fs).1 =
      ((toFileList files).filter (fun f => fsPathExists fs f)).foldl fsRm fs) ∧
    (∀ files, (toFileList files).filter (fun f => fsPathExists fs f) ≠ [] →
      Event.removedInfo ((toFileList files).filter (fun f => fsPathExists fs f)) ∈
        (remove files fs).2) ∧
    (∀ d rest, runRemoveDirectives (d :: rest) fs =
      ((runRemoveDirectives rest (remove d fs).1).1,
        (remove d fs).2 ++ (runRemoveDirectives rest (remove d fs).1).2)) := by
  refine ⟨fun files f hf hmiss => ?_, fun f => rfl, fun files => rfl,
    fun files hne => ?_, fun d rest => rfl⟩
  · have hfil : f ∈ (toFileList files).filter (fun f => !(fsPathExists fs f)) := by
      rw [List.mem_filter]
      exact ⟨hf, by simp [hmiss]⟩
    exact List.mem_append_left _ (List.mem_map_of_mem Event.warnMissing hfil)
  · refine List.mem_append_right _ ?_
    simp [List.isEmpty_iff, hne]

/-- Witness for C7: removing `["LICENSE", "ghost"]` from a destination
holding `LICENSE` and `README.md` warns about `ghost`, removes `LICENSE`,
reports it, and a subsequent directive still removes `README.md`. -/
theorem c7_remove_missing_target_is_nonfatal_witness :
    Event.warnMissing "ghost" ∈
      (remove (.many ["LICENSE", "ghost"]) ["LICENSE", "README.md"]).2 ∧
    toFileList (.single "LICENSE") = ["LICENSE"] ∧
    (remove (.many ["LICENSE", "ghost"]) ["LICENSE", "README.md"]).1 = ["README.md"] ∧
    Event.removedInfo ["LICENSE"] ∈
      (remove (.many ["LICENSE", "ghost"]) ["LICENSE", "README.md"]).2 ∧
    runRemoveDirectives [.many ["LICENSE", "ghost"], .single "README.md"]
        ["LICENSE", "README.md"] =
      ([], [Event.warnMissing "ghost", Event.removedInfo ["LICENSE"],
        Event.removedInfo ["README.md"]]) := by
  refine ⟨(c7_remove_missing_target_is_nonfatal ["LICENSE", "README.md"]).1
      (.many ["LICENSE", "ghost"]) "ghost" (by decide) (by decide),
    (c7_remove_missing_target_is_nonfatal ["LICENSE", "README.md"]).2.1 "LICENSE",
    by decide,
    (c7_remove_missing_target_is_nonfatal ["LICENSE", "README.md"]).2.2.2.1
      (.many ["LICENSE", "ghost"]) (by decide),
    by decide⟩

/-! ## C5: tarball extraction and path-segment stripping

`extractTarball` (`src/utils.ts`) asks the external `tar` collaborator to
extract with a `strip` count and an entry filter.  The collaborator itself
(segment stripping, filtering) is outside the core; what the core decides
is the `strip` number and the filter, computed from the sub-directory and
from `isSubDirectoryAFile`'s scan of the entries the collaborator yields
for that filter. -/

/-- Model of JavaScript `s.split(sep)` for a single-character separator,
e.g. `subDirectory.split('/')` and `ref.split('#')`. -/
def jsSplit (s : String) (sep : Char) : List String :=
  (s.data.splitOn sep).map String.mk

/-- Model of Node's `path.basename`: trailing separators are ignored and
the last path segment is returned (the empty string when nothing is
left).  Stated over the character list so concrete instances evaluate in
the kernel. -/
def nodeBasename (p : String) : String :=
  let trimmed := (p.data.reverse.dropWhile (fun c => c == '/')).reverse
  String.mk ((trimmed.splitOn '/').getLastD [])

/-- One entry of the tarball as yielded by the `tar` collaborator's
listing. -/
structure TarEntry where
  path : String
  type : String
deriving DecidableEq

/-- Embedding of `isSubDirectoryAFile` (`src/utils.ts`): with a truthy sub-directory,
scan the entries the `tar` collaborator yields for the filter
`[subDirectory]` and report whether one is a `File` whose basename equals
the sub-directory's basename. -/
def isSubDirectoryAFile (entries : List TarEntry) (subDirectory : String) : Bool :=
  if subDirectory == "" then false
  else entries.any (fun e => e.type == "File" && nodeBasename e.path == nodeBasename subDirectory)

/-- The arguments `extractTarball` (`src/utils.ts`) passes to the tar
collaborator's `extract`. -/
structure ExtractCall where
  strip : Nat
  fileFilter : List String
deriving DecidableEq

/-- Embedding of `extractTarball` (`src/utils.ts`): compute the strip count — for a
truthy sub-directory, one segment per `subDirectory.split('/')` part, one
fewer when the sub-directory names a single file; otherwise exactly one
(the archive's synthetic top-level folder) — and extract with the filter
`[subDirectory]` (no filter otherwise), returning the entry paths read. -/
def extractTarball (entries : List TarEntry) (subDirectory : String) :
    ExtractCall × List String :=
  let isSubDirFile := isSubDirectoryAFile entries subDirectory
  let strip :=
    if !(subDirectory == "") then
      if isSubDirFile then (jsSplit subDirectory '/').length - 1
      else (jsSplit subDirectory '/').length
    else 1
  (⟨strip, if subDirectory == "" then [] else [subDirectory]⟩,
    entries.map TarEntry.path)

/-- C5: with a non-empty sub-directory the extraction strips exactly
`subDirectory.split('/').length` leading segments when the sub-directory
names a folder and exactly one fewer when it names a single file, and with
no sub-directory it strips exactly one segment. -/
theorem c5_extract_strip_counts (entries : List TarEntry) (subDirectory : String)
    (hne : subDirectory ≠ "") :
    ((extractTarball entries subDirectory).1.strip =
      if isSubDirectoryAFile entries subDirectory then
        (jsSplit subDirectory '/').length - 1
      else (jsSplit subDirectory '/').length) ∧
    (extractTarball entries "").1.strip = 1 := by
  have hempty : (subDirectory == "") = false := beq_eq_false_iff_ne.mpr hne
  constructor
  · by_cases hfile : isSubDirectoryAFile entries subDirectory <;>
      simp [extractTarball, hempty, hfile]
  · rfl

/-- Witness for C5 at `subDirectory = "/subdir"`:
`"/subdir".split('/').length = 2`, so a folder sub-directory strips 2
segments, a single-file sub-directory (`/file.txt`) strips 1, and no
sub-directory strips 1. -/
theorem c5_extract_strip_counts_witness :
    ("/subdir" : String) ≠ "" ∧
    (jsSplit "/subdir" '/').length = 2 ∧
    isSubDirectoryAFile [⟨"repo-abc/subdir", "Directory"⟩, ⟨"repo-abc/subdir/file.txt", "File"⟩]
      "/subdir" = false ∧
    (extractTarball [⟨"repo-abc/subdir", "Directory"⟩, ⟨"repo-abc/subdir/file.txt", "File"⟩]
      "/subdir").1.strip = 2 ∧
    isSubDirectoryAFile [⟨"repo-abc/file.txt", "File"⟩] "/file.txt" = true ∧
    (extractTarball [⟨"repo-abc/file.txt", "File"⟩] "/file.txt").1.strip = 1 ∧
    (extractTarball [⟨"repo-abc/file.txt", "File"⟩] "").1.strip = 1 := by
  refine ⟨by decide, by decide, ?_, ?_, ?_, ?_,
    (c5_extract_strip_counts [⟨"repo-abc/file.txt", "File"⟩] "/subdir" (by decide)).2⟩
  · decide
  · have h := (c5_extract_strip_counts
      [⟨"repo-abc/subdir", "Directory"⟩, ⟨"repo-abc/subdir/file.txt", "File"⟩]
      "/subdir" (by decide)).1
    rw [h]
    decide
  · decide
  · have h := (c5_extract_strip_counts [⟨"repo-abc/file.txt", "File"⟩]
      "/file.txt" (by decide)).1
    rw [h]
    decide

/-! ## C9: `#`-joined refs are reversed before `git fetch`

Both `Tiged.cloneWithGit` (`src/tiged.ts`, lines 980-982) and `getOldHash`
(`src/utils.ts`, lines 641-643) compute
`ref.includes('#') ? ref.split('#').reverse().join(' ') : ref` and place
the result in the `git fetch --depth 1 ... <ref>` invocation. -/

/-- The `#`-separated segments of the ref in reversed order joined by a
single space: `ref.split('#').reverse().join(' ')`, stated over the
character list. -/
def reversedJoinedRef (repoRef : String) : String :=
  String.mk (List.intercalate [' '] ((repoRef.data.splitOn '#').reverse))

/-- The ref-argument computation of `Tiged.cloneWithGit`. -/
def cloneWithGitRef (repoRef : String) : String :=
  if repoRef.data.contains '#' then reversedJoinedRef repoRef else repoRef

/-- The (duplicated) ref-argument computation of `getOldHash`. -/
def getOldHashRef (repoRef : String) : String :=
  if repoRef.data.contains '#' then reversedJoinedRef repoRef else repoRef

/-- The shell command `Tiged.cloneWithGit` executes: on Windows the
`&&`-joined `init`/`remote add`/`fetch`/`checkout` chain; elsewhere the
`;`-joined chain when the (already reversed) ref is truthy and not `HEAD`,
and a plain `git clone --depth 1` otherwise. -/
def cloneWithGitCommand (isWindows : Bool) (url dest repoRef : String) : String :=
  if isWindows then
    "cd " ++ dest ++ " && git init && git remote add origin " ++ url ++
      " && git fetch --depth 1 origin " ++ cloneWithGitRef repoRef ++
      " && git checkout FETCH_HEAD"
  else if cloneWithGitRef repoRef != "" && cloneWithGitRef repoRef != "HEAD" then
    "cd " ++ dest ++ "; git init; git remote add origin " ++ url ++
      "; git fetch --depth 1 origin " ++ cloneWithGitRef repoRef ++
      "; git checkout FETCH_HEAD"
  else
    "git clone --depth 1 " ++ url ++ " " ++ dest

/-- The `git fetch` command of the shallow-clone probe `getOldHash`. -/
def getOldHashFetchCommand (url repoRef : String) : String :=
  "git fetch --depth 1 " ++ url ++ " " ++ getOldHashRef repoRef

/-- A list of characters containing `'#'` splits on `'#'` into at least
two parts. -/
theorem two_le_splitOn_hash_length (l : List Char) (h : '#' ∈ l) :
    2 ≤ (l.splitOn '#').length := by
  induction l with
  | nil => simp at h
  | cons a as ih =>
    have hne := List.splitOnP_ne_nil (fun c => c == '#') as
    have hpos : 0 < (as.splitOnP (fun c => c == '#')).length :=
      List.length_pos.mpr hne
    by_cases ha : a = '#'
    · simp [List.splitOn, List.splitOnP_cons, ha]
      omega
    · have hmem : '#' ∈ as := by
        rcases List.mem_cons.mp h with h₁ | h₁
        · exact absurd h₁.symm ha
        · exact h₁
      have := ih hmem
      simp only [List.splitOn, List.splitOnP_cons] at this ⊢
      simp [ha, this]

/-- A space-joined list of at least two parts contains a space. -/
theorem space_mem_intercalate (parts : List (List Char)) (h : 2 ≤ parts.length) :
    ' ' ∈ List.intercalate [' '] parts := by
  match parts with
  | [] => simp at h
  | [p] => simp at h
  | p :: q :: rest =>
    simp [List.intercalate, List.intersperse_cons₂]

/-- The reversed-joined form of a `#`-containing ref contains a space, so
it is neither empty nor the literal `HEAD`. -/
theorem reversedJoinedRef_space (repoRef : String)
    (h : repoRef.data.contains '#' = true) :
    ' ' ∈ (reversedJoinedRef repoRef).data := by
  have hmem : '#' ∈ repoRef.data := by
    simpa using h
  have hlen := two_le_splitOn_hash_length repoRef.data hmem
  have hlen' : 2 ≤ ((repoRef.data.splitOn '#').reverse).length := by
    simpa using hlen
  exact space_mem_intercalate _ hlen'

/-- C9: whenever the ref contains `'#'`, both the git retrieval path and
the shallow-clone probe place the ref's `#`-separated segments, reversed
and joined by a single space, in their `git fetch --depth 1` invocation —
on Windows, on other platforms (where the reversed form, containing a
space, is never empty nor `HEAD`, so the fetch chain is the branch taken)
and in the probe — while a ref without `'#'` is passed unchanged. -/
theorem cloneWithGitRef_pos (repoRef : String)
    (h : repoRef.data.contains '#' = true) :
    cloneWithGitRef repoRef = reversedJoinedRef repoRef := by
  unfold cloneWithGitRef
  rw [h]
  rfl

theorem getOldHashRef_pos (repoRef : String)
    (h : repoRef.data.contains '#' = true) :
    getOldHashRef repoRef = reversedJoinedRef repoRef := by
  unfold getOldHashRef
  rw [h]
  rfl

theorem c9_fetch_ref_reversal (repoRef url dest : String) :
    (repoRef.data.contains '#' = true →
      cloneWithGitRef repoRef = reversedJoinedRef repoRef ∧
      getOldHashRef repoRef = reversedJoinedRef repoRef ∧
      cloneWithGitCommand true url dest repoRef =
        "cd " ++ dest ++ " && git init && git remote add origin " ++ url ++
          " && git fetch --depth 1 origin " ++ reversedJoinedRef repoRef ++
          " && git checkout FETCH_HEAD" ∧
      cloneWithGitCommand false url dest repoRef =
        "cd " ++ dest ++ "; git init; git remote add origin " ++ url ++
          "; git fetch --depth 1 origin " ++ reversedJoinedRef repoRef ++
          "; git checkout FETCH_HEAD" ∧
      getOldHashFetchCommand url repoRef =
        "git fetch --depth 1 " ++ url ++ " " ++ reversedJoinedRef repoRef) ∧
    (repoRef.data.contains '#' = false →
      cloneWithGitRef repoRef = repoRef ∧ getOldHashRef repoRef = repoRef) := by
  constructor
  · intro h
    have href : cloneWithGitRef repoRef = reversedJoinedRef repoRef :=
      cloneWithGitRef_pos repoRef h
    have hold : getOldHashRef repoRef = reversedJoinedRef repoRef :=
      getOldHashRef_pos repoRef h
    have hspace : ' ' ∈ (reversedJoinedRef repoRef).data :=
      reversedJoinedRef_space repoRef h
    have hne1 : reversedJoinedRef repoRef ≠ "" := by
      intro hcontra
      rw [hcontra] at hspace
      simp at hspace
    have hne2 : reversedJoinedRef repoRef ≠ "HEAD" := by
      intro hcontra
      rw [hcontra] at hspace
      simp at hspace
    have hcond : (reversedJoinedRef repoRef != "" &&
        reversedJoinedRef repoRef != "HEAD") = true := by
      simp only [Bool.and_eq_true, bne_iff_ne]
      exact ⟨hne1, hne2⟩
    refine ⟨href, hold, ?_, ?_, ?_⟩
    · unfold cloneWithGitCommand
      rw [href]
      rfl
    · unfold cloneWithGitCommand
      rw [href, hcond]
      rfl
    · unfold getOldHashFetchCommand
      rw [hold]
  · intro h
    constructor
    · unfold cloneWithGitRef
      rw [h]
      rfl
    · unfold getOldHashRef
      rw [h]
      rfl

/-- Witness for C9 at `"HEAD#<hash>"`: the fetch argument becomes
`"<hash> HEAD"`, and a plain branch ref is left alone. -/
theorem c9_fetch_ref_reversal_witness :
    cloneWithGitRef "HEAD#0123456789abcdef0123456789abcdef01234567" =
      reversedJoinedRef "HEAD#0123456789abcdef0123456789abcdef01234567" ∧
    reversedJoinedRef "HEAD#0123456789abcdef0123456789abcdef01234567" =
      "0123456789abcdef0123456789abcdef01234567 HEAD" ∧
    getOldHashFetchCommand "https://github.com/user/repo"
        "HEAD#0123456789abcdef0123456789abcdef01234567" =
      "git fetch --depth 1 https://github.com/user/repo " ++
        "0123456789abcdef0123456789abcdef01234567 HEAD" ∧
    cloneWithGitRef "main" = "main" := by
  have h := c9_fetch_ref_reversal "HEAD#0123456789abcdef0123456789abcdef01234567"
    "https://github.com/user/repo" "dest"
  have hrev : reversedJoinedRef "HEAD#0123456789abcdef0123456789abcdef01234567" =
      "0123456789abcdef0123456789abcdef01234567 HEAD" := by decide
  refine ⟨(h.1 (by decide)).1, hrev, ?_, (c9_fetch_ref_reversal "main" "u" "d").2 (by decide) |>.1⟩
  rw [(h.1 (by decide)).2.2.2.2, hrev]
  rfl
